import Mathlib

/-!
Verification of the combat-option classifier of the D&D Combat Companion.

The embedding models the classifier of src/app.py, function
parse_dnd_beyond_json, lines 19-85, together with the activation
category mapper (lines 26-30) and the hit-point fraction computation
(lines 152-163).  Python dictionaries with optional keys are modelled
as structures whose fields are Option values; a dict.get with a default
becomes Option.getD at the use site.  The output dictionary
combat_options is modelled as an association list from key strings to
lists of display strings, so that statements about its exact key set
are meaningful.
-/

/-- One activation object: a dict possibly holding an activationType
integer (read at lines 44 and 73 of src/app.py).  The empty dict is the
structure with the field absent. -/
structure Activation where
  activationType : Option Int := none
deriving DecidableEq

/-- One limitedUse object: a dict possibly holding a maxUses integer
(read at line 51 of src/app.py). -/
structure LimitedUse where
  maxUses : Option Int := none
deriving DecidableEq

/-- One ability entry of the race, class or feat source lists
(lines 40-54 of src/app.py). -/
structure AbilityEntry where
  name : Option String := none
  activation : Option Activation := none
  limitedUse : Option LimitedUse := none
deriving DecidableEq

/-- One entry of definition.properties of an item (line 65). -/
structure ItemProperty where
  name : Option String := none
deriving DecidableEq

/-- The definition object of an inventory item (lines 59-65). -/
structure ItemDefinition where
  name : Option String := none
  filterType : Option String := none
  properties : Option (List ItemProperty) := none
deriving DecidableEq

/-- One inventory entry (lines 57-66). -/
structure ItemEntry where
  equipped : Option Bool := none
  definition : Option ItemDefinition := none
deriving DecidableEq

/-- The definition object of a spell (lines 71-78). -/
structure SpellDefinition where
  name : Option String := none
  level : Option Int := none
  activation : Option Activation := none
deriving DecidableEq

/-- One spell entry of a class spell list (lines 70-79). -/
structure SpellEntry where
  definition : Option SpellDefinition := none
deriving DecidableEq

/-- One element of character.classSpells: a per-class record holding a
spells list (line 70). -/
structure ClassSpellList where
  spells : Option (List SpellEntry) := none
deriving DecidableEq

/-- The character.actions mapping with its three source keys
(lines 33-38).  The source key named class in the JSON is rendered here
as classAbilities, because class is a reserved word. -/
structure ActionsData where
  race : Option (List AbilityEntry) := none
  classAbilities : Option (List AbilityEntry) := none
  feat : Option (List AbilityEntry) := none
deriving DecidableEq

/-- The character object of the normalized document (line 23 and the
fields read at lines 33, 57, 69, 152, 159, 160). -/
structure Character where
  name : Option String := none
  baseHitPoints : Option Int := none
  level : Option Int := none
  removedHitPoints : Option Int := none
  temporaryHitPoints : Option Int := none
  actions : Option ActionsData := none
  inventory : Option (List ItemEntry) := none
  classSpells : Option (List ClassSpellList) := none
deriving DecidableEq

/-- The normalized envelope handed to the classifier (line 23). -/
structure CharacterDocument where
  character : Option Character := none
deriving DecidableEq

/-- The combat_options dictionary: an ordered association list from key
strings to lists of display strings (line 24). -/
abbrev CombatOptions := List (String × List String)

/-- The initial dictionary of line 24 of src/app.py. -/
def initCombatOptions : CombatOptions :=
  [("Action", []), ("Bonus Action", []), ("Reaction", []), ("Other", [])]

/-- Appending one string to the list stored under a key, as
combat_options[k].append(v) does on a dict that contains k: the value
under the matching key grows by one element, every other entry is
untouched. -/
def appendTo : CombatOptions → String → String → CombatOptions
  | [], _, _ => []
  | (k0, l) :: rest, k, v => (k0, if k0 = k then l ++ [v] else l) :: appendTo rest k v

/-- Extending the list stored under a key with several strings, as
combat_options[k].extend(vs) does (lines 82-83). -/
def extendAt : CombatOptions → String → List String → CombatOptions
  | [], _, _ => []
  | (k0, l) :: rest, k, vs => (k0, if k0 = k then l ++ vs else l) :: extendAt rest k vs

/-- Dictionary lookup on the association list. -/
def getVal : CombatOptions → String → Option (List String)
  | [], _ => none
  | (k, v) :: rest, k0 => if k = k0 then some v else getVal rest k0

/-- The key set of the combat_options dictionary, in insertion order. -/
def fourKeys : List String := ["Action", "Bonus Action", "Reaction", "Other"]

/-- get_activation_category, lines 26-30 of src/app.py.  The argument is
the optional integer read from an activation dict. -/
def get_activation_category (activation_type : Option Int) : String :=
  if activation_type = some 1 then "Action"
  else if activation_type = some 3 then "Bonus Action"
  else if activation_type = some 4 then "Reaction"
  else "Other"

/-- Lines 43-44: activation defaults to the empty dict, then
activationType is read from it.  An explicit null activation in the
JSON is also replaced by the empty dict by the `or` at line 43, which
the Option model folds into absence. -/
def ability_act_type (ability : AbilityEntry) : Option Int :=
  (ability.activation.getD {}).activationType

/-- Lines 50-51: the uses suffix is nonempty exactly when maxUses is
present and truthy (a nonzero integer). -/
def ability_uses_text (ability : AbilityEntry) : String :=
  match (ability.limitedUse.getD {}).maxUses with
  | some m => if m = 0 then "" else " (Max: " ++ toString m ++ ")"
  | none => ""

/-- The body of the ability loop, lines 41-54 of src/app.py, for one
ability of one source list.  `if not act_type: continue` skips the
entry when activationType is absent or zero. -/
def process_ability (source_label : String) (co : CombatOptions)
    (ability : AbilityEntry) : CombatOptions :=
  let name := ability.name.getD "Unknown Ability"
  let act_type := ability_act_type ability
  if act_type = none ∨ act_type = some 0 then co
  else
    let category := get_activation_category act_type
    let uses_text := ability_uses_text ability
    if category ≠ "Other" then
      appendTo co category (source_label ++ ": " ++ name ++ uses_text)
    else co

/-- The body of the inventory loop, lines 57-66 of src/app.py.
`if not item.get('equipped'): continue` skips items whose equipped flag
is absent or false. -/
def process_item (co : CombatOptions) (item : ItemEntry) : CombatOptions :=
  if item.equipped.getD false = false then co
  else
    let definition := item.definition.getD {}
    let name := definition.name.getD "Unknown Item"
    if definition.filterType = some "Weapon" then
      let co2 := appendTo co "Action" ("⚔️ Attack: " ++ name)
      if (definition.properties.getD []).any (fun p => p.name == some "Light") then
        appendTo co2 "Bonus Action" ("⚔️ Off-hand Attack: " ++ name)
      else co2
    else co

/-- Line 78: the level label.  A spell without a level field renders as
Lvl None, because the Python f-string formats the missing value. -/
def spell_level_text (level : Option Int) : String :=
  match level with
  | some l => if l = 0 then "Cantrip" else "Lvl " ++ toString l
  | none => "Lvl None"

/-- The body of the spell loop, lines 70-79 of src/app.py. -/
def process_spell (co : CombatOptions) (spell_entry : SpellEntry) : CombatOptions :=
  let spell_def := spell_entry.definition.getD {}
  let name := spell_def.name.getD "Unknown"
  let act_type := (spell_def.activation.getD {}).activationType
  let category := get_activation_category act_type
  if category ≠ "Other" then
    appendTo co category ("✨ " ++ name ++ " (" ++ spell_level_text spell_def.level ++ ")")
  else co

/-- The six generic action strings of line 82 of src/app.py. -/
def generic_actions : List String :=
  ["🏃 Dash", "🛡️ Dodge", "💨 Disengage", "🤝 Help", "🙈 Hide", "🔍 Search"]

/-- The generic reaction string of line 83 of src/app.py. -/
def generic_reactions : List String := ["⚡ Opportunity Attack"]

/-- Steps 1 to 3 of the classifier: the three ability sources
(lines 32-54), the inventory (lines 56-66) and the spells
(lines 68-79), folded over the initial dictionary. -/
def classify_sourced (character : Character) : CombatOptions :=
  let actions_data := character.actions.getD {}
  let co := initCombatOptions
  let co := (actions_data.race.getD []).foldl (process_ability "👤 Race") co
  let co := (actions_data.classAbilities.getD []).foldl (process_ability "🛡️ Class") co
  let co := (actions_data.feat.getD []).foldl (process_ability "🎖️ Feat") co
  let co := (character.inventory.getD []).foldl process_item co
  let co := (character.classSpells.getD []).foldl
      (fun acc char_class => (char_class.spells.getD []).foldl process_spell acc) co
  co

/-- parse_dnd_beyond_json, lines 19-85 of src/app.py: the sourced
entries followed by the unconditional generic entries of lines 81-83. -/
def parse_dnd_beyond_json (data : CharacterDocument) : CombatOptions :=
  let character := data.character.getD {}
  let co := classify_sourced character
  let co := extendAt co "Action" generic_actions
  let co := extendAt co "Reaction" generic_reactions
  co

/-- Line 161 of src/app.py: current_hp = max_hp - removed_hp. -/
def current_hp (max_hp removed_hp : Int) : Int := max_hp - removed_hp

/-- Line 163 of src/app.py: the clamped hit-point fraction.  Python
float division on integers is modelled over the rationals. -/
def hp_percent (max_hp removed_hp : Int) : ℚ :=
  max 0 (min 1 ((current_hp max_hp removed_hp : ℚ) / (max_hp : ℚ)))

/-- Line 152 of src/app.py: the default maximum hit points heuristic. -/
def default_hp (c : Character) : Int :=
  c.baseHitPoints.getD 100 + c.level.getD 1 * 2

/-- A document with no character payload at all: every lookup falls
back to its default. -/
def emptyDocument : CharacterDocument := {}

/-! ## Default-filling functions

Each dict.get with a default in the classifier is mirrored by a fill
function that replaces an absent optional field by the very default the
code substitutes for it.  Fields the classifier reads without a default
(activationType, filterType, property names, spell level) are left
untouched.  The classifier is a total function of its document, and the
fill theorem below shows that running it on a document whose absent
fields have been replaced by the defaults gives the same output. -/

/-- Defaults of lines 42, 43 and 50 of src/app.py. -/
def fillAbility (a : AbilityEntry) : AbilityEntry where
  name := some (a.name.getD "Unknown Ability")
  activation := some (a.activation.getD {})
  limitedUse := some (a.limitedUse.getD {})

/-- Defaults of lines 60 and 65 of src/app.py. -/
def fillItemDefinition (d : ItemDefinition) : ItemDefinition where
  name := some (d.name.getD "Unknown Item")
  filterType := d.filterType
  properties := some (d.properties.getD [])

/-- Defaults of lines 58 and 59 of src/app.py. -/
def fillItem (i : ItemEntry) : ItemEntry where
  equipped := some (i.equipped.getD false)
  definition := some (fillItemDefinition (i.definition.getD {}))

/-- Defaults of lines 72 and 73 of src/app.py. -/
def fillSpellDefinition (d : SpellDefinition) : SpellDefinition where
  name := some (d.name.getD "Unknown")
  level := d.level
  activation := some (d.activation.getD {})

/-- Default of line 71 of src/app.py. -/
def fillSpellEntry (s : SpellEntry) : SpellEntry where
  definition := some (fillSpellDefinition (s.definition.getD {}))

/-- Default of line 70 of src/app.py. -/
def fillClassSpellList (c : ClassSpellList) : ClassSpellList where
  spells := some ((c.spells.getD []).map fillSpellEntry)

/-- Defaults of lines 35-37 of src/app.py. -/
def fillActionsData (a : ActionsData) : ActionsData where
  race := some ((a.race.getD []).map fillAbility)
  classAbilities := some ((a.classAbilities.getD []).map fillAbility)
  feat := some ((a.feat.getD []).map fillAbility)

/-- Defaults of lines 33, 57, 69, 152, 159 and 160 of src/app.py. -/
def fillCharacter (c : Character) : Character where
  name := c.name
  baseHitPoints := some (c.baseHitPoints.getD 100)
  level := some (c.level.getD 1)
  removedHitPoints := some (c.removedHitPoints.getD 0)
  temporaryHitPoints := some (c.temporaryHitPoints.getD 0)
  actions := some (fillActionsData (c.actions.getD {}))
  inventory := some ((c.inventory.getD []).map fillItem)
  classSpells := some ((c.classSpells.getD []).map fillClassSpellList)

/-- Default of line 23 of src/app.py. -/
def fillDocument (d : CharacterDocument) : CharacterDocument where
  character := some (fillCharacter (d.character.getD {}))

/-! ## Concrete example documents -/

/-- A race ability with one limited use and an Action activation. -/
def abilityBreath : AbilityEntry where
  name := some "Breath Weapon"
  activation := some { activationType := some 1 }
  limitedUse := some { maxUses := some 1 }

/-- An equipped weapon without the Light property. -/
def itemSword : ItemEntry where
  equipped := some true
  definition := some { name := some "Sword", filterType := some "Weapon", properties := some [] }

/-- An equipped weapon with the Light property. -/
def itemDagger : ItemEntry where
  equipped := some true
  definition := some
    { name := some "Dagger", filterType := some "Weapon",
      properties := some [{ name := some "Light" }] }

/-- A level-zero spell cast as an action. -/
def spellFireBolt : SpellEntry where
  definition := some
    { name := some "Fire Bolt", level := some 0,
      activation := some { activationType := some 1 } }

/-- A document holding only the sword. -/
def docSword : CharacterDocument where
  character := some { inventory := some [itemSword] }

/-- A document holding only the fire bolt spell. -/
def docFireBolt : CharacterDocument where
  character := some { classSpells := some [{ spells := some [spellFireBolt] }] }

/-- An ability with an Action activation that lacks a name. -/
def abilityNameless : AbilityEntry where
  activation := some { activationType := some 1 }

/-- An equipped weapon that lacks a name. -/
def itemNameless : ItemEntry where
  equipped := some true
  definition := some { filterType := some "Weapon" }

/-- A nameless cantrip cast as an action. -/
def spellNameless : SpellEntry where
  definition := some
    { level := some 0, activation := some { activationType := some 1 } }

/-! ## Dictionary lemmas -/

lemma appendTo_map_fst (co : CombatOptions) (k v : String) :
    (appendTo co k v).map Prod.fst = co.map Prod.fst := by
  induction co with
  | nil => rfl
  | cons p rest ih =>
    obtain ⟨a, b⟩ := p
    simp [appendTo, ih]

lemma extendAt_map_fst (co : CombatOptions) (k : String) (vs : List String) :
    (extendAt co k vs).map Prod.fst = co.map Prod.fst := by
  induction co with
  | nil => rfl
  | cons p rest ih =>
    obtain ⟨a, b⟩ := p
    simp [extendAt, ih]

lemma getVal_appendTo_ne (co : CombatOptions) (k v k0 : String) (h : k ≠ k0) :
    getVal (appendTo co k v) k0 = getVal co k0 := by
  induction co with
  | nil => rfl
  | cons p rest ih =>
    obtain ⟨a, b⟩ := p
    by_cases hak0 : a = k0
    · subst hak0
      have hak : a ≠ k := fun hh => h (hh ▸ rfl)
      simp [appendTo, getVal, hak]
    · simp [appendTo, getVal, hak0, ih]

lemma getVal_appendTo_eq (co : CombatOptions) (k v : String) :
    getVal (appendTo co k v) k = (getVal co k).map (fun l => l ++ [v]) := by
  induction co with
  | nil => rfl
  | cons p rest ih =>
    obtain ⟨a, b⟩ := p
    by_cases hak : a = k
    · subst hak
      simp [appendTo, getVal]
    · simp [appendTo, getVal, hak, ih]

lemma getVal_extendAt_ne (co : CombatOptions) (k : String) (vs : List String)
    (k0 : String) (h : k ≠ k0) :
    getVal (extendAt co k vs) k0 = getVal co k0 := by
  induction co with
  | nil => rfl
  | cons p rest ih =>
    obtain ⟨a, b⟩ := p
    by_cases hak0 : a = k0
    · subst hak0
      have hak : a ≠ k := fun hh => h (hh ▸ rfl)
      simp [extendAt, getVal, hak]
    · simp [extendAt, getVal, hak0, ih]

lemma getVal_extendAt_eq (co : CombatOptions) (k : String) (vs : List String) :
    getVal (extendAt co k vs) k = (getVal co k).map (fun l => l ++ vs) := by
  induction co with
  | nil => rfl
  | cons p rest ih =>
    obtain ⟨a, b⟩ := p
    by_cases hak : a = k
    · subst hak
      simp [extendAt, getVal]
    · simp [extendAt, getVal, hak, ih]

lemma getVal_some_of_mem_fst (co : CombatOptions) (k : String)
    (h : k ∈ co.map Prod.fst) : ∃ l, getVal co k = some l := by
  induction co with
  | nil => simp at h
  | cons p rest ih =>
    obtain ⟨a, b⟩ := p
    by_cases hak : a = k
    · exact ⟨b, by simp [getVal, hak]⟩
    · simp only [List.map_cons, List.mem_cons] at h
      rcases h with h | h
      · exact absurd h.symm hak
      · simpa [getVal, hak] using ih h

lemma foldl_preserve {α : Type} (P : CombatOptions → Prop)
    (f : CombatOptions → α → CombatOptions)
    (hf : ∀ co x, P co → P (f co x)) :
    ∀ (l : List α) (co : CombatOptions), P co → P (l.foldl f co) := by
  intro l
  induction l with
  | nil => intro co h; exact h
  | cons x xs ih => intro co h; exact ih (f co x) (hf co x h)

lemma foldl_map_cancel {α : Type} (f : α → α)
    (g : CombatOptions → α → CombatOptions)
    (h : ∀ co x, g co (f x) = g co x) :
    ∀ (l : List α) (co : CombatOptions), (l.map f).foldl g co = l.foldl g co := by
  intro l
  induction l with
  | nil => intro co; rfl
  | cons x xs ih =>
    intro co
    simp only [List.map_cons, List.foldl_cons, h]
    exact ih (g co x)

/-! ## Preservation lemmas for the classifier steps -/

lemma foldl_map_fst {α : Type} (f : CombatOptions → α → CombatOptions)
    (hf : ∀ co x, (f co x).map Prod.fst = co.map Prod.fst) :
    ∀ (l : List α) (co : CombatOptions),
      (l.foldl f co).map Prod.fst = co.map Prod.fst := by
  intro l
  induction l with
  | nil => intro co; rfl
  | cons x xs ih =>
    intro co
    rw [List.foldl_cons, ih (f co x), hf]

lemma foldl_getVal_eq {α : Type} (k0 : String) (f : CombatOptions → α → CombatOptions)
    (hf : ∀ co x, getVal (f co x) k0 = getVal co k0) :
    ∀ (l : List α) (co : CombatOptions),
      getVal (l.foldl f co) k0 = getVal co k0 := by
  intro l
  induction l with
  | nil => intro co; rfl
  | cons x xs ih =>
    intro co
    rw [List.foldl_cons, ih (f co x), hf]

lemma process_ability_map_fst (lbl : String) (co : CombatOptions) (a : AbilityEntry) :
    (process_ability lbl co a).map Prod.fst = co.map Prod.fst := by
  unfold process_ability
  by_cases h1 : ability_act_type a = none ∨ ability_act_type a = some 0
  · simp [h1]
  · by_cases h2 : get_activation_category (ability_act_type a) ≠ "Other"
    · simp [h1, h2, appendTo_map_fst]
    · simp [h1, h2]

lemma process_ability_getVal_other (lbl : String) (co : CombatOptions) (a : AbilityEntry) :
    getVal (process_ability lbl co a) "Other" = getVal co "Other" := by
  unfold process_ability
  by_cases h1 : ability_act_type a = none ∨ ability_act_type a = some 0
  · simp [h1]
  · by_cases h2 : get_activation_category (ability_act_type a) ≠ "Other"
    · simp only [if_neg h1, if_pos h2]
      exact getVal_appendTo_ne _ _ _ _ h2
    · simp [h1, h2]

lemma process_item_map_fst (co : CombatOptions) (item : ItemEntry) :
    (process_item co item).map Prod.fst = co.map Prod.fst := by
  unfold process_item
  by_cases h0 : item.equipped.getD false = false
  · simp [h0]
  · by_cases hw : (item.definition.getD {}).filterType = some "Weapon"
    · by_cases hl : ((item.definition.getD {}).properties.getD []).any
          (fun p => p.name == some "Light") = true
      · simp [h0, hw, hl, appendTo_map_fst]
      · simp [h0, hw, hl, appendTo_map_fst]
    · simp [h0, hw]

lemma process_item_getVal_other (co : CombatOptions) (item : ItemEntry) :
    getVal (process_item co item) "Other" = getVal co "Other" := by
  unfold process_item
  by_cases h0 : item.equipped.getD false = false
  · simp [h0]
  · by_cases hw : (item.definition.getD {}).filterType = some "Weapon"
    · by_cases hl : ((item.definition.getD {}).properties.getD []).any
          (fun p => p.name == some "Light") = true
      · simp only [if_neg h0, if_pos hw, if_pos hl]
        rw [getVal_appendTo_ne _ _ _ _ (by decide : "Bonus Action" ≠ "Other"),
          getVal_appendTo_ne _ _ _ _ (by decide : "Action" ≠ "Other")]
      · simp only [if_neg h0, if_pos hw, if_neg hl]
        rw [getVal_appendTo_ne _ _ _ _ (by decide : "Action" ≠ "Other")]
    · simp [h0, hw]

lemma process_spell_map_fst (co : CombatOptions) (s : SpellEntry) :
    (process_spell co s).map Prod.fst = co.map Prod.fst := by
  unfold process_spell
  by_cases h2 : get_activation_category
      ((s.definition.getD {}).activation.getD {}).activationType ≠ "Other"
  · simp [h2, appendTo_map_fst]
  · simp [h2]

lemma process_spell_getVal_other (co : CombatOptions) (s : SpellEntry) :
    getVal (process_spell co s) "Other" = getVal co "Other" := by
  unfold process_spell
  by_cases h2 : get_activation_category
      ((s.definition.getD {}).activation.getD {}).activationType ≠ "Other"
  · simp only [if_pos h2]
    exact getVal_appendTo_ne _ _ _ _ h2
  · simp [h2]

lemma classify_sourced_map_fst (c : Character) :
    (classify_sourced c).map Prod.fst = fourKeys := by
  simp only [classify_sourced]
  rw [foldl_map_fst _ (fun co cc => foldl_map_fst _ process_spell_map_fst _ co),
    foldl_map_fst _ process_item_map_fst,
    foldl_map_fst _ (process_ability_map_fst "🎖️ Feat"),
    foldl_map_fst _ (process_ability_map_fst "🛡️ Class"),
    foldl_map_fst _ (process_ability_map_fst "👤 Race")]
  rfl

lemma classify_sourced_getVal_other (c : Character) :
    getVal (classify_sourced c) "Other" = some [] := by
  simp only [classify_sourced]
  rw [foldl_getVal_eq _ _ (fun co cc => foldl_getVal_eq _ _ process_spell_getVal_other _ co),
    foldl_getVal_eq _ _ process_item_getVal_other,
    foldl_getVal_eq _ _ (process_ability_getVal_other "🎖️ Feat"),
    foldl_getVal_eq _ _ (process_ability_getVal_other "🛡️ Class"),
    foldl_getVal_eq _ _ (process_ability_getVal_other "👤 Race")]
  rfl

/-! ## Default-filling lemmas -/

lemma process_ability_fill (lbl : String) (co : CombatOptions) (a : AbilityEntry) :
    process_ability lbl co (fillAbility a) = process_ability lbl co a := by
  obtain ⟨n, act, lu⟩ := a
  cases n <;> cases act <;> cases lu <;> rfl

lemma process_item_fill (co : CombatOptions) (i : ItemEntry) :
    process_item co (fillItem i) = process_item co i := by
  obtain ⟨e, d⟩ := i
  cases e <;> cases d <;> rfl

lemma process_spell_fill (co : CombatOptions) (s : SpellEntry) :
    process_spell co (fillSpellEntry s) = process_spell co s := by
  obtain ⟨d⟩ := s
  cases d with
  | none => rfl
  | some d0 =>
    obtain ⟨dn, lv, act⟩ := d0
    cases dn <;> cases act <;> rfl

lemma classify_sourced_fill (c : Character) :
    classify_sourced (fillCharacter c) = classify_sourced c := by
  simp only [classify_sourced, fillCharacter, fillActionsData, Option.getD_some]
  rw [foldl_map_cancel fillAbility (process_ability "👤 Race") (process_ability_fill "👤 Race"),
    foldl_map_cancel fillAbility (process_ability "🛡️ Class") (process_ability_fill "🛡️ Class"),
    foldl_map_cancel fillAbility (process_ability "🎖️ Feat") (process_ability_fill "🎖️ Feat"),
    foldl_map_cancel fillItem process_item process_item_fill,
    foldl_map_cancel fillClassSpellList _ (fun co0 cc => by
      simp only [fillClassSpellList, Option.getD_some]
      exact foldl_map_cancel fillSpellEntry process_spell process_spell_fill _ co0)]

/-! ## Claim theorems -/

/-- Claim C1: the activation category mapper returns Action for 1, Bonus Action
for 3, Reaction for 4, and Other for every other integer code as well as for an
absent code; it is a total function with no error conditions. -/
theorem activation_category_spec :
    get_activation_category (some 1) = "Action" ∧
    get_activation_category (some 3) = "Bonus Action" ∧
    get_activation_category (some 4) = "Reaction" ∧
    get_activation_category none = "Other" ∧
    ∀ t : Int, t ≠ 1 → t ≠ 3 → t ≠ 4 → get_activation_category (some t) = "Other" := by
  refine ⟨by decide, by decide, by decide, by decide, ?_⟩
  intro t h1 h3 h4
  simp [get_activation_category, h1, h3, h4]

/-- Claim C1 witness: the mapper sends the concrete code 7 to Other. -/
theorem activation_category_spec_witness :
    (7 : Int) ≠ 1 ∧ (7 : Int) ≠ 3 ∧ (7 : Int) ≠ 4 ∧
      get_activation_category (some 7) = "Other" :=
  ⟨by decide, by decide, by decide,
    activation_category_spec.2.2.2.2 7 (by decide) (by decide) (by decide)⟩

/-- Claim C2: for every input document, the classifier output is a dictionary
with exactly the four keys Action, Bonus Action, Reaction and Other, in this
order; by the type of the association list, each key holds a possibly empty
ordered list of strings. -/
theorem classifier_output_keys (d : CharacterDocument) :
    (parse_dnd_beyond_json d).map Prod.fst = fourKeys := by
  simp only [parse_dnd_beyond_json]
  rw [extendAt_map_fst, extendAt_map_fst, classify_sourced_map_fst]

/-- Claim C3: for an ability entry of any source list, an absent or falsy
activationType contributes nothing; a truthy activationType whose category is
Other also contributes nothing; otherwise the line made of the source label, a
colon, the name and the uses suffix is appended to the category list, and the
uses suffix is nonempty exactly when maxUses is present and truthy. -/
theorem sourced_ability_rules (source_label : String) (co : CombatOptions)
    (a : AbilityEntry) :
    (ability_act_type a = none ∨ ability_act_type a = some 0 →
      process_ability source_label co a = co) ∧
    (∀ t : Int, ability_act_type a = some t → t ≠ 0 →
      get_activation_category (some t) = "Other" →
      process_ability source_label co a = co) ∧
    (∀ t : Int, ability_act_type a = some t → t ≠ 0 →
      get_activation_category (some t) ≠ "Other" →
      process_ability source_label co a =
        appendTo co (get_activation_category (some t))
          (source_label ++ ": " ++ a.name.getD "Unknown Ability" ++
            ability_uses_text a)) ∧
    (∀ m : Int, (a.limitedUse.getD {}).maxUses = some m → m ≠ 0 →
      ability_uses_text a = " (Max: " ++ toString m ++ ")") ∧
    ((a.limitedUse.getD {}).maxUses = none ∨ (a.limitedUse.getD {}).maxUses = some 0 →
      ability_uses_text a = "") := by
  refine ⟨?_, ?_, ?_, ?_, ?_⟩
  · intro h
    simp [process_ability, h]
  · intro t ht ht0 hcat
    have h1 : ¬(ability_act_type a = none ∨ ability_act_type a = some 0) := by
      rw [ht]; simp [ht0]
    simp [process_ability, h1, ht, hcat]
  · intro t ht ht0 hcat
    have h1 : ¬(ability_act_type a = none ∨ ability_act_type a = some 0) := by
      rw [ht]; simp [ht0]
    simp [process_ability, h1, ht, ht0, hcat]
  · intro m hm hm0
    simp [ability_uses_text, hm, hm0]
  · intro h
    rcases h with h | h <;> simp [ability_uses_text, h]

/-- Claim C3 witness: a Race breath weapon with one limited use and an Action
activation lands in the Action list with its uses suffix. -/
theorem sourced_ability_rules_witness :
    process_ability "👤 Race" initCombatOptions abilityBreath =
      appendTo initCombatOptions "Action" "👤 Race: Breath Weapon (Max: 1)" := by
  have h := (sourced_ability_rules "👤 Race" initCombatOptions abilityBreath).2.2.1 1
    (by decide) (by decide) (by decide)
  rw [h]
  decide

/-- Claim C4 counterexample: with one equipped non-Light weapon named Sword, the
Action list of the classifier holds the icon-prefixed attack line; the bare
string claimed by the spec does not occur in it. -/
theorem weapon_line_literal_counterexample :
    getVal (parse_dnd_beyond_json docSword) "Action" =
      some ("⚔️ Attack: Sword" :: generic_actions) ∧
    "Attack: Sword" ∉ ("⚔️ Attack: Sword" :: generic_actions) := by
  decide

/-- Claim C4 (amended): for an inventory entry, a falsy equipped flag or a
filterType other than Weapon contributes nothing to any list; an equipped
weapon appends the icon-prefixed attack line to the Action list, and also the
icon-prefixed off-hand attack line to the Bonus Action list exactly when some
property is named Light. -/
theorem equipped_weapon_rules (co : CombatOptions) (item : ItemEntry) :
    (item.equipped.getD false = false → process_item co item = co) ∧
    (item.equipped.getD false = true →
      (item.definition.getD {}).filterType ≠ some "Weapon" →
      process_item co item = co) ∧
    (item.equipped.getD false = true →
      (item.definition.getD {}).filterType = some "Weapon" →
      ((item.definition.getD {}).properties.getD []).any
          (fun p => p.name == some "Light") = false →
      process_item co item =
        appendTo co "Action"
          ("⚔️ Attack: " ++ (item.definition.getD {}).name.getD "Unknown Item")) ∧
    (item.equipped.getD false = true →
      (item.definition.getD {}).filterType = some "Weapon" →
      ((item.definition.getD {}).properties.getD []).any
          (fun p => p.name == some "Light") = true →
      process_item co item =
        appendTo
          (appendTo co "Action"
            ("⚔️ Attack: " ++ (item.definition.getD {}).name.getD "Unknown Item"))
          "Bonus Action"
          ("⚔️ Off-hand Attack: " ++ (item.definition.getD {}).name.getD "Unknown Item")) := by
  refine ⟨?_, ?_, ?_, ?_⟩
  · intro h
    simp [process_item, h]
  · intro he hw
    simp [process_item, he, hw]
  · intro he hw hl
    simp [process_item, he, hw, hl]
  · intro he hw hl
    simp [process_item, he, hw, hl]

/-- Claim C4 witness: an equipped Light dagger yields both the attack line in
the Action list and the off-hand attack line in the Bonus Action list. -/
theorem equipped_weapon_rules_witness :
    process_item initCombatOptions itemDagger =
      appendTo (appendTo initCombatOptions "Action" "⚔️ Attack: Dagger")
        "Bonus Action" "⚔️ Off-hand Attack: Dagger" := by
  have h := (equipped_weapon_rules initCombatOptions itemDagger).2.2.2
    (by decide) (by decide) (by decide)
  rw [h]
  decide

/-- Claim C5 counterexample: with one level-zero Action spell named Fire Bolt,
the Action list of the classifier holds the icon-prefixed spell line; the bare
string claimed by the spec does not occur in it. -/
theorem spell_line_literal_counterexample :
    getVal (parse_dnd_beyond_json docFireBolt) "Action" =
      some ("✨ Fire Bolt (Cantrip)" :: generic_actions) ∧
    "Fire Bolt (Cantrip)" ∉ ("✨ Fire Bolt (Cantrip)" :: generic_actions) := by
  decide

/-- Claim C5 (amended): for a spell entry, the category is computed by the
mapper from the activationType of the definition; when it is Other nothing is
appended, otherwise the icon-prefixed line with the name and the level label in
parentheses is appended to the category list, the label being Cantrip for
level zero and Lvl followed by the level for any nonzero level. -/
theorem spell_rules (co : CombatOptions) (s : SpellEntry) :
    (get_activation_category
        ((s.definition.getD {}).activation.getD {}).activationType = "Other" →
      process_spell co s = co) ∧
    (get_activation_category
        ((s.definition.getD {}).activation.getD {}).activationType ≠ "Other" →
      process_spell co s =
        appendTo co
          (get_activation_category
            ((s.definition.getD {}).activation.getD {}).activationType)
          ("✨ " ++ (s.definition.getD {}).name.getD "Unknown" ++ " (" ++
            spell_level_text (s.definition.getD {}).level ++ ")")) ∧
    spell_level_text (some 0) = "Cantrip" ∧
    (∀ l : Int, l ≠ 0 → spell_level_text (some l) = "Lvl " ++ toString l) := by
  refine ⟨?_, ?_, by decide, ?_⟩
  · intro h
    simp [process_spell, h]
  · intro h
    simp [process_spell, h]
  · intro l hl
    simp [spell_level_text, hl]

/-- Claim C5 witness: the fire bolt cantrip lands in the Action list with its
Cantrip label. -/
theorem spell_rules_witness :
    process_spell initCombatOptions spellFireBolt =
      appendTo initCombatOptions "Action" "✨ Fire Bolt (Cantrip)" := by
  have h := (spell_rules initCombatOptions spellFireBolt).2.1 (by decide)
  rw [h]
  decide

/-- Claim C6 counterexample: on the empty document the Action list holds
exactly the six icon-prefixed generic strings and the Reaction list the
icon-prefixed opportunity attack; the bare strings Dash and Opportunity Attack
claimed by the spec occur in neither. -/
theorem generic_entries_literal_counterexample :
    getVal (parse_dnd_beyond_json emptyDocument) "Action" = some generic_actions ∧
    "Dash" ∉ generic_actions ∧
    getVal (parse_dnd_beyond_json emptyDocument) "Reaction" = some generic_reactions ∧
    "Opportunity Attack" ∉ generic_reactions := by
  decide

/-- Claim C6 (amended): for every document, including the empty one, the
classifier appends the six fixed icon-prefixed strings for Dash, Dodge,
Disengage, Help, Hide and Search at the end of the Action list and the fixed
icon-prefixed opportunity attack string at the end of the Reaction list; the
appended strings are constants independent of the input. -/
theorem generic_entries_appended (d : CharacterDocument) :
    (∃ l, getVal (parse_dnd_beyond_json d) "Action" = some (l ++ generic_actions)) ∧
    (∃ l, getVal (parse_dnd_beyond_json d) "Reaction" = some (l ++ generic_reactions)) := by
  have hk := classify_sourced_map_fst (d.character.getD {})
  obtain ⟨la, hla⟩ := getVal_some_of_mem_fst _ "Action" (by rw [hk]; decide)
  obtain ⟨lr, hlr⟩ := getVal_some_of_mem_fst _ "Reaction" (by rw [hk]; decide)
  constructor
  · refine ⟨la, ?_⟩
    simp only [parse_dnd_beyond_json]
    rw [getVal_extendAt_ne _ _ _ _ (by decide : "Reaction" ≠ "Action"),
      getVal_extendAt_eq, hla]
    rfl
  · refine ⟨lr, ?_⟩
    simp only [parse_dnd_beyond_json]
    rw [getVal_extendAt_eq,
      getVal_extendAt_ne _ _ _ _ (by decide : "Action" ≠ "Reaction"), hlr]
    rfl

/-- Claim C7: the classifier is total on structurally incomplete documents:
it is a function into CombatOptions, and replacing every absent optional field
by the default the code substitutes for it does not change the output, so
absent fields are handled by default substitution rather than as errors. -/
theorem classifier_total_default_fill (d : CharacterDocument) :
    parse_dnd_beyond_json (fillDocument d) = parse_dnd_beyond_json d := by
  simp only [parse_dnd_beyond_json, fillDocument, Option.getD_some]
  rw [classify_sourced_fill]

/-- Claim C8: for every maximum and removed hit-point count with a nonzero
maximum, the clamped hit-point fraction lies between zero and one, also when
the removed count exceeds the maximum or is negative. -/
theorem hp_fraction_clamped (max_hp removed_hp : Int) (h : max_hp ≠ 0) :
    0 ≤ hp_percent max_hp removed_hp ∧ hp_percent max_hp removed_hp ≤ 1 := by
  unfold hp_percent
  exact ⟨le_max_left 0 _, max_le (by norm_num) (min_le_left 1 _)⟩

/-- Claim C8 witness: at maximum 10 with 15 hit points removed the fraction is
still between zero and one. -/
theorem hp_fraction_clamped_witness :
    (10 : Int) ≠ 0 ∧ (0 ≤ hp_percent 10 15 ∧ hp_percent 10 15 ≤ 1) :=
  ⟨by decide, hp_fraction_clamped 10 15 (by decide)⟩

/-- Claim C9: the Other list of the classifier output is empty for every input
document. -/
theorem other_list_always_empty (d : CharacterDocument) :
    getVal (parse_dnd_beyond_json d) "Other" = some [] := by
  simp only [parse_dnd_beyond_json]
  rw [getVal_extendAt_ne _ _ _ _ (by decide : "Reaction" ≠ "Other"),
    getVal_extendAt_ne _ _ _ _ (by decide : "Action" ≠ "Other"),
    classify_sourced_getVal_other]

/-- Claim C10: every classified entry whose name field is absent still
produces its line, with the placeholder name in place of the missing one:
Unknown Ability for abilities, Unknown Item for equipped weapons and Unknown
for spells; the entry is neither skipped nor an error. -/
theorem placeholder_names_used :
    (∀ (source_label : String) (co : CombatOptions) (a : AbilityEntry) (t : Int),
      a.name = none → ability_act_type a = some t → t ≠ 0 →
      get_activation_category (some t) ≠ "Other" →
      process_ability source_label co a =
        appendTo co (get_activation_category (some t))
          (source_label ++ ": " ++ "Unknown Ability" ++ ability_uses_text a)) ∧
    (∀ (co : CombatOptions) (item : ItemEntry),
      item.equipped.getD false = true →
      (item.definition.getD {}).filterType = some "Weapon" →
      (item.definition.getD {}).name = none →
      process_item co item =
        (if ((item.definition.getD {}).properties.getD []).any
            (fun p => p.name == some "Light") then
          appendTo (appendTo co "Action" "⚔️ Attack: Unknown Item")
            "Bonus Action" "⚔️ Off-hand Attack: Unknown Item"
        else appendTo co "Action" "⚔️ Attack: Unknown Item")) ∧
    (∀ (co : CombatOptions) (s : SpellEntry),
      (s.definition.getD {}).name = none →
      get_activation_category
          ((s.definition.getD {}).activation.getD {}).activationType ≠ "Other" →
      process_spell co s =
        appendTo co
          (get_activation_category
            ((s.definition.getD {}).activation.getD {}).activationType)
          ("✨ " ++ "Unknown" ++ " (" ++
            spell_level_text (s.definition.getD {}).level ++ ")")) := by
  refine ⟨?_, ?_, ?_⟩
  · intro source_label co a t hn ht ht0 hcat
    have h1 : ¬(ability_act_type a = none ∨ ability_act_type a = some 0) := by
      rw [ht]; simp [ht0]
    simp [process_ability, h1, ht, ht0, hcat, hn]
  · intro co item he hw hn
    by_cases hl : ((item.definition.getD {}).properties.getD []).any
        (fun p => p.name == some "Light") = true
    · simp [process_item, he, hw, hn, hl]
    · simp [process_item, he, hw, hn, hl]
  · intro co s hn hcat
    simp [process_spell, hn, hcat]

/-- Claim C10 witness: a nameless Action ability, a nameless equipped weapon
and a nameless cantrip each yield their placeholder line. -/
theorem placeholder_names_used_witness :
    process_ability "👤 Race" initCombatOptions abilityNameless =
      appendTo initCombatOptions "Action" "👤 Race: Unknown Ability" ∧
    process_item initCombatOptions itemNameless =
      appendTo initCombatOptions "Action" "⚔️ Attack: Unknown Item" ∧
    process_spell initCombatOptions spellNameless =
      appendTo initCombatOptions "Action" "✨ Unknown (Cantrip)" := by
  refine ⟨?_, ?_, ?_⟩
  · have h := placeholder_names_used.1 "👤 Race" initCombatOptions abilityNameless 1
      (by decide) (by decide) (by decide) (by decide)
    rw [h]
    decide
  · have h := placeholder_names_used.2.1 initCombatOptions itemNameless
      (by decide) (by decide) (by decide)
    rw [h]
    decide
  · have h := placeholder_names_used.2.2 initCombatOptions spellNameless
      (by decide) (by decide)
    rw [h]
    decide
